import Mathlib

/-!
Verification of `src/timer.py` (cli-timer-app): a command-line countdown
timer.  The program parses a duration string with the anchored regex
`^((?P<hours>\d+)h)?((?P<minutes>\d+)m)?((?P<seconds>\d+)s)?$`, counts down
while rendering the remaining time, and plays a notification sound ten
times via `afplay` when the countdown completes.

Shallow embedding notes:

* Strings are `List Char`.  Python's `\d` in a str pattern matches every
  Unicode decimal digit (category Nd), not only ASCII `0-9`, and `int()`
  accepts those digits — e.g. the real `parse_time` maps the string
  U+0663 (ARABIC-INDIC DIGIT THREE) followed by `s` to 3.  The embedding
  models `\d` as the ASCII-only `Char.isDigit`, on which the two agree:
  it under-approximates the program's accepted set, every string the
  model accepts is accepted by the program with the same value, and the
  model and the program agree exactly on ASCII inputs.  Accordingly, the
  completeness theorem (the direction that infers rejection, where the
  under-approximation could otherwise overclaim) carries an explicit
  ASCII hypothesis.
* The regex is anchored (`re.match` + a final `$`) and every group is of
  the shape `\d+X` for a fixed non-digit letter `X`, so matching is
  deterministic: `\d+` is greedy and giving back a digit would place a
  digit where the letter is required, and skipping a group that matches
  leaves the input starting with a digit, which no later group and no
  anchor can accept.  Hence the greedy, non-backtracking `tryPart` below is
  exactly equivalent to Python's backtracking engine on this pattern.
* Python's `$` matches at the end of the string OR just before a single
  newline that ends the string; `atEnd` models both positions.
* `time.time` / `time.sleep` are modelled with an idealised discrete clock
  in which a sleep of `min 1 remaining` advances time by exactly that
  amount, so `round(end_time - time.time())` decreases by exactly one per
  tick.  A `KeyboardInterrupt` delivered during the k-th sleep (or the
  k-th `subprocess.run`) is modelled by an explicit schedule parameter.
* `subprocess.run(['afplay', ...], check=True, capture_output=True)`
  blocks until the child exits, so repeats are sequential by construction;
  its outcome at each iteration is an explicit environment parameter.
-/

namespace Timer

/-- Numeric value of an ASCII digit character. -/
def digitVal (c : Char) : Nat := c.toNat - '0'.toNat

/-- `int(...)` on a digit string: decimal value of a list of digit chars. -/
def digitsToNat (ds : List Char) : Nat :=
  ds.foldl (fun a c => a * 10 + digitVal c) 0

/-- One optional regex group `((?P<g>\d+)X)?` at the current position:
consume a maximal nonempty digit run followed by the literal suffix `X`,
returning the numeric value of the digits and the rest of the input, or
`none` when the group does not match here.  (See the header: on this
pattern greedy matching is equivalent to full backtracking, and
`Char.isDigit` is the ASCII fragment of Python's Unicode-wide `\d`, so
this under-approximates the program's matching outside ASCII.) -/
def matchPart (suffix : Char) (s : List Char) : Option (Nat × List Char) :=
  let ds := s.takeWhile Char.isDigit
  let rest := s.dropWhile Char.isDigit
  if ds.isEmpty then none
  else
    match rest with
    | c :: rest' => if c = suffix then some (digitsToNat ds, rest') else none
    | [] => none

/-- An optional group: on failure the engine continues from the same
position with the group absent. -/
def tryPart (suffix : Char) (s : List Char) : Option Nat × List Char :=
  match matchPart suffix s with
  | some (n, rest) => (some n, rest)
  | none => (none, s)

/-- Python's `$` anchor: end of string, or just before a newline that ends
the string. -/
def atEnd (s : List Char) : Bool :=
  s = [] || s = ['\n']

/-- The named groups of a successful match of the timer regex. -/
structure RegexGroups where
  hours : Option Nat
  minutes : Option Nat
  seconds : Option Nat
deriving DecidableEq

/-- `re.match(r'^((?P<hours>\d+)h)?((?P<minutes>\d+)m)?((?P<seconds>\d+)s)?$', s)`:
the three optional groups in order, then the `$` anchor. -/
def regexMatch (s : List Char) : Option RegexGroups :=
  let r1 := tryPart 'h' s
  let r2 := tryPart 'm' r1.2
  let r3 := tryPart 's' r2.2
  if atEnd r3.2 then some ⟨r1.1, r2.1, r3.1⟩ else none

/-- The three distinct `ValueError`s `parse_time` can raise; the first two
constructors carry the offending input string, which their messages
interpolate. -/
inductive ParseError where
  | invalidFormat (input : List Char)
  | noTimeUnits (input : List Char)
  | nonPositiveTotal
deriving DecidableEq

/-- The message text of each `ValueError` raised by `parse_time`. -/
def renderError : ParseError → List Char
  | .invalidFormat s =>
      ("Invalid time format: " ++ "'").toList ++ s ++
        ("'" ++ ". Use formats like " ++ "'" ++ "1h30m" ++ "'" ++ ", " ++
          "'" ++ "90m" ++ "'" ++ ", " ++ "'" ++ "180s" ++ "'" ++ ".").toList
  | .noTimeUnits s =>
      ("Invalid time format: " ++ "'").toList ++ s ++
        ("'" ++ ". No time units (h, m, s) found.").toList
  | .nonPositiveTotal => ("Total duration must be positive.").toList

/-- The input string embedded in an error's message, when the message
mentions one. -/
def errorInput : ParseError → Option (List Char)
  | .invalidFormat s => some s
  | .noTimeUnits s => some s
  | .nonPositiveTotal => none

/-- The body of `parse_time` past the `if not match` guard, for a match
with groups `g`.  `match.group(0)` — the whole matched text — is empty
exactly when all three groups are absent (every present group consumes at
least two characters), which is the code's `not match.group(0)` check. -/
def parse_time_body (s : List Char) (g : RegexGroups) : Except ParseError Nat :=
  if g.hours.isNone && g.minutes.isNone && g.seconds.isNone then
    .error (.invalidFormat s)
  else
    let hours := g.hours.getD 0
    let minutes := g.minutes.getD 0
    let seconds := g.seconds.getD 0
    let total := hours * 3600 + minutes * 60 + seconds
    if total = 0 then
      if hours = 0 && minutes = 0 && seconds = 0 then
        .error (.noTimeUnits s)
      else
        .error .nonPositiveTotal
    else
      .ok total

/-- `parse_time` from `src/timer.py`. -/
def parse_time (s : List Char) : Except ParseError Nat :=
  match regexMatch s with
  | none => .error (.invalidFormat s)
  | some g => parse_time_body s g

deriving instance DecidableEq for Except

/-- `true` exactly on the error outcome (a raised `ValueError`). -/
def isError : Except ParseError Nat → Bool
  | .error _ => true
  | .ok _ => false

example : parse_time ("1h30m10s").toList = .ok 5410 := by decide
example : parse_time ("90m").toList = .ok 5400 := by decide
example : parse_time ("180s").toList = .ok 180 := by decide
example : parse_time ("2h").toList = .ok 7200 := by decide
example : isError (parse_time ("").toList) = true := by decide
example : isError (parse_time ("abc").toList) = true := by decide
example : isError (parse_time ("30x").toList) = true := by decide
example : isError (parse_time ("0h0m0s").toList) = true := by decide
example : isError (parse_time ("0s").toList) = true := by decide
example : isError (parse_time ("30m1h").toList) = true := by decide
example : parse_time ("30s" ++ "\n").toList = .ok 30 := by decide

/-! ## The grammar of valid duration strings

`partOk`/`partStr`/`partVal` describe one optional component of the
spec's grammar `{h}h{m}m{s}s`: absent, or a nonempty run of digits
followed by its suffix letter.  `buildStr` concatenates the three
components in h, m, s order with no separators, and `totalOf` is the
specified value `h*3600 + m*60 + s`. -/

def partOk : Option (List Char) → Prop
  | none => True
  | some ds => ds ≠ [] ∧ ∀ c ∈ ds, Char.isDigit c

instance partOk_decidable (p : Option (List Char)) : Decidable (partOk p) :=
  match p with
  | none => .isTrue trivial
  | some ds => inferInstanceAs (Decidable (ds ≠ [] ∧ ∀ c ∈ ds, Char.isDigit c))

def partVal : Option (List Char) → Nat
  | none => 0
  | some ds => digitsToNat ds

def partStr (suffix : Char) : Option (List Char) → List Char
  | none => []
  | some ds => ds ++ [suffix]

def buildStr (h m s : Option (List Char)) : List Char :=
  partStr 'h' h ++ (partStr 'm' m ++ partStr 's' s)

def totalOf (h m s : Option (List Char)) : Nat :=
  partVal h * 3600 + partVal m * 60 + partVal s

/-! ## Parser lemmas -/

lemma takeWhile_digits_append (ds : List Char) (c : Char) (rest : List Char)
    (hds : ∀ x ∈ ds, Char.isDigit x) (hc : Char.isDigit c = false) :
    (ds ++ c :: rest).takeWhile Char.isDigit = ds ∧
      (ds ++ c :: rest).dropWhile Char.isDigit = c :: rest := by
  induction ds with
  | nil => simp [List.takeWhile, List.dropWhile, hc]
  | cons d ds ih =>
    have hd : Char.isDigit d := hds d (by simp)
    obtain ⟨h1, h2⟩ := ih (fun x hx => hds x (by simp [hx]))
    simp [List.takeWhile, List.dropWhile, hd, h1, h2]

lemma tryPart_nil (c : Char) : tryPart c [] = (none, []) := rfl

lemma tryPart_hit (c : Char) (ds rest : List Char) (h1 : ds ≠ [])
    (h2 : ∀ x ∈ ds, Char.isDigit x) (hc : Char.isDigit c = false) :
    tryPart c (ds ++ c :: rest) = (some (digitsToNat ds), rest) := by
  obtain ⟨ht, hd⟩ := takeWhile_digits_append ds c rest h2 hc
  simp [tryPart, matchPart, ht, hd, h1]

lemma tryPart_miss (c : Char) (ds : List Char) (c' : Char) (rest : List Char)
    (h2 : ∀ x ∈ ds, Char.isDigit x) (hnd : Char.isDigit c' = false)
    (hne : c' ≠ c) :
    tryPart c (ds ++ c' :: rest) = (none, ds ++ c' :: rest) := by
  obtain ⟨ht, hd⟩ := takeWhile_digits_append ds c' rest h2 hnd
  by_cases h : ds = []
  · subst h; simp [tryPart, matchPart, hnd, hne]
  · simp [tryPart, matchPart, ht, hd, h, hne]

lemma tryPart_s_on_sPart (s : Option (List Char)) (hs : partOk s) :
    tryPart 's' (partStr 's' s) = (s.map digitsToNat, []) := by
  cases s with
  | none => simp [partStr, tryPart_nil]
  | some ds =>
    obtain ⟨h1, h2⟩ := hs
    simpa [partStr] using tryPart_hit 's' ds [] h1 h2 (by decide)

lemma tryPart_m_on_msPart (m s : Option (List Char))
    (hm : partOk m) (hs : partOk s) :
    tryPart 'm' (partStr 'm' m ++ partStr 's' s) =
      (m.map digitsToNat, partStr 's' s) := by
  cases m with
  | none =>
    cases s with
    | none => simp [partStr, tryPart_nil]
    | some ds =>
      obtain ⟨h1, h2⟩ := hs
      simpa [partStr] using tryPart_miss 'm' ds 's' [] h2 (by decide) (by decide)
  | some dm =>
    obtain ⟨h1, h2⟩ := hm
    simpa [partStr, List.append_assoc] using
      tryPart_hit 'm' dm (partStr 's' s) h1 h2 (by decide)

lemma tryPart_h_on_build (h m s : Option (List Char))
    (hh : partOk h) (hm : partOk m) (hs : partOk s) :
    tryPart 'h' (buildStr h m s) =
      (h.map digitsToNat, partStr 'm' m ++ partStr 's' s) := by
  cases h with
  | none =>
    cases m with
    | some dm =>
      obtain ⟨h1, h2⟩ := hm
      simpa [buildStr, partStr, List.append_assoc] using
        tryPart_miss 'h' dm 'm' (partStr 's' s) h2 (by decide) (by decide)
    | none =>
      cases s with
      | none => simp [buildStr, partStr, tryPart_nil]
      | some ds =>
        obtain ⟨h1, h2⟩ := hs
        simpa [buildStr, partStr] using
          tryPart_miss 'h' ds 's' [] h2 (by decide) (by decide)
  | some dh =>
    obtain ⟨h1, h2⟩ := hh
    simpa [buildStr, partStr, List.append_assoc] using
      tryPart_hit 'h' dh (partStr 'm' m ++ partStr 's' s) h1 h2 (by decide)

lemma regexMatch_build (h m s : Option (List Char))
    (hh : partOk h) (hm : partOk m) (hs : partOk s) :
    regexMatch (buildStr h m s) =
      some ⟨h.map digitsToNat, m.map digitsToNat, s.map digitsToNat⟩ := by
  simp [regexMatch, tryPart_h_on_build h m s hh hm hs,
    tryPart_m_on_msPart m s hm hs, tryPart_s_on_sPart s hs, atEnd]

lemma map_getD_partVal (p : Option (List Char)) :
    (Option.map digitsToNat p).getD 0 = partVal p := by
  cases p <;> rfl

lemma map_isNone_iff (p : Option (List Char)) :
    (Option.map digitsToNat p).isNone = true ↔ p = none := by
  cases p <;> simp

lemma parse_time_eq_none (s : List Char) (hg : regexMatch s = none) :
    parse_time s = .error (.invalidFormat s) := by
  unfold parse_time
  rw [hg]

lemma parse_time_eq_some (s : List Char) (g : RegexGroups)
    (hg : regexMatch s = some g) :
    parse_time s = parse_time_body s g := by
  unfold parse_time
  rw [hg]

/-- Soundness: on a grammatical duration string with positive total,
`parse_time` returns exactly the specified total. -/
lemma parse_time_ok_of_valid (h m s : Option (List Char))
    (hh : partOk h) (hm : partOk m) (hs : partOk s)
    (hpos : 0 < totalOf h m s) :
    parse_time (buildStr h m s) = .ok (totalOf h m s) := by
  have hsome : regexMatch (buildStr h m s) =
      some ⟨h.map digitsToNat, m.map digitsToNat, s.map digitsToNat⟩ :=
    regexMatch_build h m s hh hm hs
  rw [parse_time_eq_some _ _ hsome]
  unfold parse_time_body
  simp only [map_getD_partVal]
  rw [if_neg ?hnn]
  case hnn =>
    simp only [Bool.and_eq_true, map_isNone_iff]
    rintro ⟨⟨e1, e2⟩, e3⟩
    subst e1; subst e2; subst e3
    simp [totalOf, partVal] at hpos
  rw [if_neg ?hnz]
  case hnz =>
    show ¬(partVal h * 3600 + partVal m * 60 + partVal s = 0)
    unfold totalOf at hpos
    omega
  rfl

lemma mem_takeWhile_digit (s : List Char) :
    ∀ x ∈ s.takeWhile Char.isDigit, Char.isDigit x := by
  induction s with
  | nil => simp [List.takeWhile]
  | cons a l ih =>
    intro x hx
    by_cases ha : Char.isDigit a
    · rw [List.takeWhile_cons_of_pos ha] at hx
      rcases List.mem_cons.mp hx with rfl | hx'
      · exact ha
      · exact ih x hx'
    · rw [List.takeWhile_cons_of_neg ha] at hx
      cases hx

lemma matchPart_some (c : Char) (s : List Char) (n : Nat) (rest : List Char)
    (h : matchPart c s = some (n, rest)) :
    ∃ ds, ds ≠ [] ∧ (∀ x ∈ ds, Char.isDigit x) ∧
      s = ds ++ c :: rest ∧ n = digitsToNat ds := by
  unfold matchPart at h
  by_cases he : (s.takeWhile Char.isDigit).isEmpty
  · simp [he] at h
  · cases hdr : s.dropWhile Char.isDigit with
    | nil => simp [he, hdr] at h
    | cons c0 rest0 =>
      by_cases hc0 : c0 = c
      · subst hc0
        simp [he, hdr] at h
        obtain ⟨h1, h2⟩ := h
        refine ⟨s.takeWhile Char.isDigit, by simpa using he,
          mem_takeWhile_digit s, ?_, h1.symm⟩
        conv_lhs => rw [← List.takeWhile_append_dropWhile (p := Char.isDigit) (l := s)]
        rw [hdr, h2]
      · simp [he, hdr, hc0] at h

lemma tryPart_inv (c : Char) (s : List Char) (v : Option Nat) (rest : List Char)
    (h : tryPart c s = (v, rest)) :
    ∃ p : Option (List Char), partOk p ∧
      s = partStr c p ++ rest ∧ v = p.map digitsToNat := by
  unfold tryPart at h
  cases hm : matchPart c s with
  | none =>
    rw [hm] at h
    refine ⟨none, trivial, ?_, ?_⟩ <;> simp_all [partStr]
  | some p =>
    obtain ⟨pn, pr⟩ := p
    rw [hm] at h
    simp only [Prod.mk.injEq] at h
    obtain ⟨hv, hr⟩ := h
    obtain ⟨ds, h1, h2, h3, h4⟩ := matchPart_some c s pn pr hm
    refine ⟨some ds, ⟨h1, h2⟩, ?_, ?_⟩
    · rw [h3, hr, partStr, List.append_assoc]
      rfl
    · rw [← hv, h4]
      rfl

lemma parse_time_body_ok (s : List Char) (g : RegexGroups) (n : Nat)
    (h : parse_time_body s g = .ok n) :
    ¬(g.hours.isNone ∧ g.minutes.isNone ∧ g.seconds.isNone) ∧
      n = g.hours.getD 0 * 3600 + g.minutes.getD 0 * 60 + g.seconds.getD 0 ∧
      0 < n := by
  unfold parse_time_body at h
  by_cases h1 : (g.hours.isNone && g.minutes.isNone && g.seconds.isNone) = true
  · rw [if_pos h1] at h; cases h
  · rw [if_neg h1] at h
    simp only [] at h
    by_cases h2 : g.hours.getD 0 * 3600 + g.minutes.getD 0 * 60 + g.seconds.getD 0 = 0
    · rw [if_pos h2] at h
      split at h <;> cases h
    · rw [if_neg h2] at h
      cases h
      refine ⟨?_, rfl, by omega⟩
      simpa [Bool.and_eq_true] using h1

lemma parse_time_body_error (s : List Char) (g : RegexGroups) (e : ParseError)
    (h : parse_time_body s g = .error e) :
    e = .invalidFormat s ∨ e = .noTimeUnits s := by
  unfold parse_time_body at h
  by_cases h1 : (g.hours.isNone && g.minutes.isNone && g.seconds.isNone) = true
  · rw [if_pos h1] at h
    cases h
    exact Or.inl rfl
  · rw [if_neg h1] at h
    simp only [] at h
    by_cases h2 : g.hours.getD 0 * 3600 + g.minutes.getD 0 * 60 + g.seconds.getD 0 = 0
    · have hz : g.hours.getD 0 = 0 ∧ g.minutes.getD 0 = 0 ∧ g.seconds.getD 0 = 0 := by
        omega
      rw [if_pos h2, if_pos (by simp [hz.1, hz.2.1, hz.2.2])] at h
      cases h
      exact Or.inr rfl
    · rw [if_neg h2] at h
      cases h

/-- Positivity: every value `parse_time` returns is strictly positive. -/
lemma parse_time_ok_pos (s : List Char) (n : Nat)
    (h : parse_time s = .ok n) : 0 < n := by
  cases hg : regexMatch s with
  | none => rw [parse_time_eq_none s hg] at h; cases h
  | some g =>
    rw [parse_time_eq_some s g hg] at h
    exact (parse_time_body_ok s g n h).2.2

/-- Error shape: every `ValueError` `parse_time` raises is one of the two
constructors that embed the offending input in their message; the
"Total duration must be positive." branch is unreachable because the three
component values are non-negative naturals. -/
lemma parse_time_error_shape (s : List Char) (e : ParseError)
    (h : parse_time s = .error e) :
    e = .invalidFormat s ∨ e = .noTimeUnits s := by
  cases hg : regexMatch s with
  | none =>
    rw [parse_time_eq_none s hg] at h
    cases h
    exact Or.inl rfl
  | some g =>
    rw [parse_time_eq_some s g hg] at h
    exact parse_time_body_error s g e h

/-- Completeness: every string `parse_time` accepts is a grammatical
duration string with positive total, possibly followed by one trailing
newline (Python's `$` matches just before a final newline). -/
lemma parse_time_ok_shape (s : List Char) (n : Nat)
    (h : parse_time s = .ok n) :
    ∃ hp mp sp, partOk hp ∧ partOk mp ∧ partOk sp ∧
      ¬(hp = none ∧ mp = none ∧ sp = none) ∧
      n = totalOf hp mp sp ∧ 0 < n ∧
      (s = buildStr hp mp sp ∨ s = buildStr hp mp sp ++ ['\n']) := by
  cases hg : regexMatch s with
  | none => rw [parse_time_eq_none s hg] at h; cases h
  | some g =>
    rw [parse_time_eq_some s g hg] at h
    obtain ⟨hna, hn, hpos⟩ := parse_time_body_ok s g n h
    unfold regexMatch at hg
    obtain ⟨v1, s1, hv1⟩ : ∃ v1 s1, tryPart 'h' s = (v1, s1) := ⟨_, _, rfl⟩
    obtain ⟨v2, s2, hv2⟩ : ∃ v2 s2, tryPart 'm' s1 = (v2, s2) := ⟨_, _, rfl⟩
    obtain ⟨v3, s3, hv3⟩ : ∃ v3 s3, tryPart 's' s2 = (v3, s3) := ⟨_, _, rfl⟩
    simp only [] at hg
    rw [hv1] at hg
    simp only [] at hg
    rw [hv2] at hg
    simp only [] at hg
    rw [hv3] at hg
    simp only [] at hg
    by_cases he : atEnd s3 = true
    · rw [if_pos he] at hg
      have hgeq : g = RegexGroups.mk v1 v2 v3 := (Option.some.inj hg).symm
      subst hgeq
      simp only [] at hna hn
      obtain ⟨hp, php, hsp, hvp⟩ := tryPart_inv 'h' s v1 s1 hv1
      obtain ⟨mp, pmp, msp, mvp⟩ := tryPart_inv 'm' s1 v2 s2 hv2
      obtain ⟨sp, psp, ssp, svp⟩ := tryPart_inv 's' s2 v3 s3 hv3
      subst hvp; subst mvp; subst svp
      have hs3 : s3 = [] ∨ s3 = ['\n'] := by
        rcases s3 with _ | ⟨a, l⟩
        · exact Or.inl rfl
        · right
          unfold atEnd at he
          simp only [Bool.or_eq_true, decide_eq_true_eq] at he
          rcases he with h' | h'
          · cases h'
          · exact h'
      have hbuild : s = buildStr hp mp sp ++ s3 := by
        rw [hsp, msp, ssp, buildStr]
        simp [List.append_assoc]
      refine ⟨hp, mp, sp, php, pmp, psp, ?_, ?_, hpos, ?_⟩
      · rintro ⟨e1, e2, e3⟩
        exact hna ⟨by simp [e1], by simp [e2], by simp [e3]⟩
      · rw [hn, totalOf, map_getD_partVal, map_getD_partVal, map_getD_partVal]
      · rcases hs3 with h3 | h3
        · left; rw [hbuild, h3, List.append_nil]
        · right; rw [hbuild, h3]
    · rw [if_neg he] at hg
      cases hg

/-! ## Rendering remaining time (`countdown`'s `HH:MM:SS` display) -/

def digitChar : Nat → Char
  | 0 => '0' | 1 => '1' | 2 => '2' | 3 => '3' | 4 => '4'
  | 5 => '5' | 6 => '6' | 7 => '7' | 8 => '8' | 9 => '9'
  | _ => '!'

/-- Decimal digit string of `n` (most significant first, no leading
zeros), as produced by Python's `{n:d}` formatting. -/
def natDigits (n : Nat) : List Char :=
  if h : n < 10 then [digitChar n]
  else natDigits (n / 10) ++ [digitChar (n % 10)]
decreasing_by exact Nat.div_lt_self (by omega) (by omega)

/-- Python's `{n:02d}`: decimal, zero-padded on the left to width two
(wider when `n` has more than two digits). -/
def pad2 (n : Nat) : List Char :=
  if n < 10 then '0' :: natDigits n else natDigits n

/-- The `HH:MM:SS` string built each tick from `hours_rem = r // 3600`,
`mins_rem = (r % 3600) // 60` and `secs_rem = r % 60`. -/
def format_hms (r : Nat) : List Char :=
  pad2 (r / 3600) ++ ':' :: (pad2 (r % 3600 / 60) ++ ':' :: pad2 (r % 60))

lemma digitVal_digitChar (d : Nat) (h : d < 10) : digitVal (digitChar d) = d := by
  interval_cases d <;> rfl

lemma isDigit_digitChar (d : Nat) (h : d < 10) : (digitChar d).isDigit = true := by
  interval_cases d <;> rfl

lemma digitsToNat_append_singleton (xs : List Char) (c : Char) :
    digitsToNat (xs ++ [c]) = digitsToNat xs * 10 + digitVal c := by
  unfold digitsToNat
  rw [List.foldl_append]
  rfl

lemma natDigits_of_lt (n : Nat) (h : n < 10) : natDigits n = [digitChar n] := by
  unfold natDigits
  rw [dif_pos h]

lemma natDigits_of_ge (n : Nat) (h : ¬n < 10) :
    natDigits n = natDigits (n / 10) ++ [digitChar (n % 10)] := by
  conv_lhs => unfold natDigits
  rw [dif_neg h]

lemma digitsToNat_natDigits (n : Nat) : digitsToNat (natDigits n) = n := by
  induction n using Nat.strong_induction_on with
  | _ n ih =>
    by_cases h : n < 10
    · rw [natDigits_of_lt n h]
      simp [digitsToNat, digitVal_digitChar n h]
    · rw [natDigits_of_ge n h, digitsToNat_append_singleton,
        ih (n / 10) (Nat.div_lt_self (by omega) (by omega)),
        digitVal_digitChar _ (Nat.mod_lt n (by omega))]
      omega

lemma natDigits_all_digit (n : Nat) :
    ∀ c ∈ natDigits n, c.isDigit = true := by
  induction n using Nat.strong_induction_on with
  | _ n ih =>
    by_cases h : n < 10
    · rw [natDigits_of_lt n h]
      intro c hc
      rcases List.mem_singleton.mp hc with rfl
      exact isDigit_digitChar n h
    · rw [natDigits_of_ge n h]
      intro c hc
      rcases List.mem_append.mp hc with hc' | hc'
      · exact ih (n / 10) (Nat.div_lt_self (by omega) (by omega)) c hc'
      · rcases List.mem_singleton.mp hc' with rfl
        exact isDigit_digitChar _ (Nat.mod_lt n (by omega))

lemma natDigits_length_one (n : Nat) (h : n < 10) :
    (natDigits n).length = 1 := by
  rw [natDigits_of_lt n h]
  rfl

lemma natDigits_length_two (n : Nat) (h1 : 10 ≤ n) (h2 : n < 100) :
    (natDigits n).length = 2 := by
  rw [natDigits_of_ge n (by omega), natDigits_of_lt (n / 10) (by omega)]
  rfl

lemma natDigits_length_pos (n : Nat) : 0 < (natDigits n).length := by
  by_cases h : n < 10
  · rw [natDigits_of_lt n h]; simp
  · rw [natDigits_of_ge n h]; simp

lemma pad2_roundtrip (n : Nat) : digitsToNat (pad2 n) = n := by
  unfold pad2
  by_cases h : n < 10
  · rw [if_pos h, natDigits_of_lt n h]
    simp only [digitsToNat, List.foldl]
    have h0 : digitVal '0' = 0 := rfl
    rw [h0, digitVal_digitChar n h]
    omega
  · rw [if_neg h]
    exact digitsToNat_natDigits n

lemma pad2_length_of_lt (n : Nat) (h : n < 100) : (pad2 n).length = 2 := by
  unfold pad2
  by_cases h1 : n < 10
  · rw [if_pos h1, natDigits_of_lt n h1]
    rfl
  · rw [if_neg h1]
    exact natDigits_length_two n (by omega) h

lemma pad2_length_ge (n : Nat) : 2 ≤ (pad2 n).length := by
  unfold pad2
  by_cases h1 : n < 10
  · rw [if_pos h1, natDigits_of_lt n h1]
    rfl
  · rw [if_neg h1, natDigits_of_ge n h1]
    have := natDigits_length_pos (n / 10)
    simp only [List.length_append, List.length_cons, List.length_nil]
    omega

lemma pad2_all_digit (n : Nat) : ∀ c ∈ pad2 n, c.isDigit = true := by
  unfold pad2
  by_cases h1 : n < 10
  · rw [if_pos h1]
    intro c hc
    rcases List.mem_cons.mp hc with rfl | hc'
    · rfl
    · exact natDigits_all_digit n c hc'
  · rw [if_neg h1]
    exact natDigits_all_digit n

/-! ## Countdown loop

Output is modelled as a list of events: `.line` is an ordinary `print`
(newline-terminated); `.overwrite` is `print(..., end='\r')` followed by
`sys.stdout.flush()` — written to the same output line (the carriage
return moves the cursor to the start of the line, no newline is emitted)
and flushed immediately. -/

inductive OutEvent where
  | line (s : List Char)
  | overwrite (s : List Char)
deriving DecidableEq

inductive Outcome where
  | complete
  | cancelled
deriving DecidableEq

structure CdRun where
  events : List OutEvent
  sleeps : List Nat
  outcome : Outcome
deriving DecidableEq

def tickMsg (r : Nat) : OutEvent :=
  .overwrite (("Time remaining: ").toList ++ format_hms r)

def timesUpMsg : OutEvent := .line ("\nTime" ++ "'" ++ "s up!").toList

def cancelMsg : OutEvent := .line ("\nTimer cancelled by user.").toList

/-- The `while True` loop of `countdown` at (idealised) remaining `r`:
when `r = 0` the `remaining <= 0` test fires and the loop breaks
(`Complete`); otherwise the tick is rendered and the loop sleeps
`min 1 remaining`, after which remaining has decreased by exactly one
under the idealised clock.  `int?` counts the sleeps until a scheduled
`KeyboardInterrupt` (`none`: no interrupt); an interrupt is caught by the
`except KeyboardInterrupt` handler, which prints the cancellation message
and calls `sys.exit(0)`. -/
def countdownLoop : Nat → Option Nat → CdRun
  | 0, _ => ⟨[timesUpMsg], [], .complete⟩
  | r+1, some 0 => ⟨[tickMsg (r+1), cancelMsg], [min 1 (r+1)], .cancelled⟩
  | r+1, some (k+1) =>
    let rest := countdownLoop r (some k)
    ⟨tickMsg (r+1) :: rest.events, min 1 (r+1) :: rest.sleeps, rest.outcome⟩
  | r+1, none =>
    let rest := countdownLoop r none
    ⟨tickMsg (r+1) :: rest.events, min 1 (r+1) :: rest.sleeps, rest.outcome⟩

def setMsg (seconds : Nat) : OutEvent :=
  .line (("Timer set for ").toList ++ natDigits seconds ++ (" seconds.").toList)

/-- `countdown(seconds)` under an interrupt schedule. -/
def countdown (seconds : Nat) (int? : Option Nat) : CdRun :=
  let r := countdownLoop seconds int?
  ⟨setMsg seconds :: r.events, r.sleeps, r.outcome⟩

lemma countdownLoop_none (n : Nat) :
    (countdownLoop n none).outcome = .complete ∧
      (countdownLoop n none).sleeps = List.replicate n 1 := by
  induction n with
  | zero => exact ⟨rfl, rfl⟩
  | succ r ih =>
    have hmin : min 1 (r + 1) = 1 := by omega
    exact ⟨ih.1, by rw [List.replicate_succ, ← ih.2]; simp [countdownLoop, hmin]⟩

lemma countdownLoop_cancelled (n k : Nat) (h : k < n) :
    (countdownLoop n (some k)).outcome = .cancelled ∧
      cancelMsg ∈ (countdownLoop n (some k)).events := by
  induction k generalizing n with
  | zero =>
    obtain ⟨r, rfl⟩ : ∃ r, n = r + 1 := ⟨n - 1, by omega⟩
    exact ⟨rfl, by simp [countdownLoop]⟩
  | succ k ih =>
    obtain ⟨r, rfl⟩ : ∃ r, n = r + 1 := ⟨n - 1, by omega⟩
    obtain ⟨h1, h2⟩ := ih r (by omega)
    exact ⟨h1, by simp [countdownLoop]; right; exact h2⟩

lemma tickMsg_mem_countdownLoop (n r : Nat) (h1 : 0 < r) (h2 : r ≤ n) :
    tickMsg r ∈ (countdownLoop n none).events := by
  induction n with
  | zero => omega
  | succ m ih =>
    by_cases hr : r = m + 1
    · subst hr
      simp [countdownLoop]
    · have := ih (by omega)
      simp [countdownLoop]
      right
      exact this

/-! ## Completion notifier (`play_sound_macos`)

`env i` gives the outcome of the `subprocess.run(['afplay', sound_file],
check=True, capture_output=True)` call at loop iteration `i`:
`success` (exit status 0), `fileNotFound` (`FileNotFoundError`: `afplay`
missing), `failed stderr` (`subprocess.CalledProcessError` with the given
captured stderr), `interrupted` (`KeyboardInterrupt` delivered during the
wait) or `otherError` (any other exception).  `subprocess.run` blocks
until the child exits, so the repeats are sequential with no overlap by
construction. -/

inductive PlayResult where
  | success
  | fileNotFound
  | failed (stderr : List Char)
  | interrupted
  | otherError (msg : List Char)
deriving DecidableEq

def afplayMissingMsg : OutEvent :=
  .line ("Error: " ++ "'" ++ "afplay" ++ "'" ++
    " command not found. Is this a macOS system?").toList

def playFailMsg (i : Nat) : OutEvent :=
  .line (("Error playing sound (iteration ").toList ++ natDigits (i + 1) ++
    ("): CalledProcessError").toList)

def stderrMsg (st : List Char) : OutEvent :=
  .line (("Stderr: ").toList ++ st)

def soundInterruptMsg : OutEvent :=
  .line ("\nSound playback interrupted by user.").toList

def unexpectedMsg (i : Nat) (msg : List Char) : OutEvent :=
  .line (("An unexpected error occurred during sound playback (iteration ").toList
    ++ natDigits (i + 1) ++ ("): ").toList ++ msg)

def finishedMsg : OutEvent := .line ("Finished playing sound.").toList

structure SoundRun where
  attempts : List Nat
  events : List OutEvent
  exited : Bool
deriving DecidableEq

/-- What one loop iteration prints when it stops the loop. -/
def stopEvents (i : Nat) : PlayResult → List OutEvent
  | .success => []
  | .fileNotFound => [afplayMissingMsg]
  | .failed st => [playFailMsg i, stderrMsg st]
  | .interrupted => [soundInterruptMsg]
  | .otherError m => [unexpectedMsg i m]

/-- Only the `KeyboardInterrupt` arm calls `sys.exit(0)`. -/
def stopExited : PlayResult → Bool
  | .interrupted => true
  | _ => false

/-- The `for i in range(repeat_count)` loop from iteration `i` with `rem`
iterations left: on success continue; on any handled exception print its
message(s) and `break` (or `sys.exit(0)` for `KeyboardInterrupt`). -/
def soundLoop (env : Nat → PlayResult) : Nat → Nat → SoundRun
  | _, 0 => ⟨[], [], false⟩
  | i, rem+1 =>
    match env i with
    | .success =>
      let rest := soundLoop env (i + 1) rem
      ⟨i :: rest.attempts, rest.events, rest.exited⟩
    | .fileNotFound => ⟨[i], [afplayMissingMsg], false⟩
    | .failed st => ⟨[i], [playFailMsg i, stderrMsg st], false⟩
    | .interrupted => ⟨[i], [soundInterruptMsg], true⟩
    | .otherError m => ⟨[i], [unexpectedMsg i m], false⟩

def soundHeaderMsg (repeat_count : Nat) : OutEvent :=
  .line (("Playing sound " ++ "'" ++ "/System/Library/Sounds/Ping.aiff" ++ "'" ++
    " ").toList ++ natDigits repeat_count ++ (" times.").toList)

/-- `play_sound_macos(repeat_count)`: print the header, run the loop, and
unless a `KeyboardInterrupt` already exited the process, fall through to
the final `print("Finished playing sound.")` and return normally. -/
def play_sound_macos (repeat_count : Nat) (env : Nat → PlayResult) : SoundRun :=
  let r := soundLoop env 0 repeat_count
  ⟨r.attempts,
    soundHeaderMsg repeat_count :: r.events ++ (if r.exited then [] else [finishedMsg]),
    r.exited⟩

lemma soundLoop_all_success (env : Nat → PlayResult) (rem : Nat) :
    ∀ i, (∀ j, j < rem → env (i + j) = .success) →
      soundLoop env i rem = ⟨List.range' i rem, [], false⟩ := by
  induction rem with
  | zero => intro i _; rfl
  | succ r ih =>
    intro i h
    have h0 : env i = .success := by simpa using h 0 (by omega)
    have hrest := ih (i + 1) (fun j hj => by
      have := h (j + 1) (by omega)
      simpa [Nat.add_assoc, Nat.add_comm 1 j] using this)
    simp [soundLoop, h0, hrest, List.range'_succ]

lemma soundLoop_stops (env : Nat → PlayResult) (k : Nat) :
    ∀ i rem, k < rem → (∀ j, j < k → env (i + j) = .success) →
      env (i + k) ≠ .success →
      soundLoop env i rem =
        ⟨List.range' i (k + 1), stopEvents (i + k) (env (i + k)),
          stopExited (env (i + k))⟩ := by
  induction k with
  | zero =>
    intro i rem hk _ hstop
    obtain ⟨r, rfl⟩ : ∃ r, rem = r + 1 := ⟨rem - 1, by omega⟩
    simp only [Nat.add_zero] at hstop ⊢
    cases henv : env i with
    | success => exact absurd henv hstop
    | fileNotFound => simp [soundLoop, henv, stopEvents, stopExited, List.range']
    | failed st => simp [soundLoop, henv, stopEvents, stopExited, List.range']
    | interrupted => simp [soundLoop, henv, stopEvents, stopExited, List.range']
    | otherError m => simp [soundLoop, henv, stopEvents, stopExited, List.range']
  | succ k ih =>
    intro i rem hk hsucc hstop
    obtain ⟨r, rfl⟩ : ∃ r, rem = r + 1 := ⟨rem - 1, by omega⟩
    have h0 : env i = .success := by simpa using hsucc 0 (by omega)
    have hrec := ih (i + 1) r (by omega)
      (fun j hj => by
        have := hsucc (j + 1) (by omega)
        simpa [Nat.add_assoc, Nat.add_comm 1 j] using this)
      (by
        have : i + 1 + k = i + (k + 1) := by omega
        rw [this]; exact hstop)
    have harr : i + 1 + k = i + (k + 1) := by omega
    simp [soundLoop, h0, hrec, harr, List.range'_succ]

lemma soundLoop_exited (env : Nat → PlayResult) (rem : Nat) :
    ∀ i, (soundLoop env i rem).exited = true →
      ∃ k, k ∈ (soundLoop env i rem).attempts ∧ env k = .interrupted := by
  induction rem with
  | zero => intro i h; cases h
  | succ r ih =>
    intro i h
    cases henv : env i with
    | success =>
      rw [soundLoop, henv] at h ⊢
      simp only [] at h ⊢
      obtain ⟨k, hk1, hk2⟩ := ih (i + 1) h
      exact ⟨k, by simp [hk1], hk2⟩
    | fileNotFound => rw [soundLoop, henv] at h; cases h
    | failed st => rw [soundLoop, henv] at h; cases h
    | interrupted => exact ⟨i, by rw [soundLoop, henv]; simp, henv⟩
    | otherError m => rw [soundLoop, henv] at h; cases h

/-! ## Entry point (`__main__`) -/

def usageMsg : OutEvent := .line ("usage: timer.py [-h] duration").toList

def mainErrMsg (e : ParseError) : OutEvent :=
  .line (("Error: ").toList ++ renderError e)

structure MainResult where
  exitCode : Nat
  countdownStarted : Bool
  soundAttempts : Nat
  events : List OutEvent
deriving DecidableEq

/-- The `__main__` block: parse the duration, run the countdown, then
notify with `repeat_count=10`.  A `ValueError` from `parse_time` is caught
and leads to the error message, `parser.print_usage()` and `sys.exit(1)`
before any countdown starts.  A cancelled countdown has already called
`sys.exit(0)` inside `countdown`, so playback is never invoked.  After a
completed countdown, `play_sound_macos` either returns normally (the
script falls off the end, exit status 0) or has called `sys.exit(0)` on a
`KeyboardInterrupt` — exit status 0 either way. -/
def main (dur : List Char) (cdInt : Option Nat) (env : Nat → PlayResult) :
    MainResult :=
  match parse_time dur with
  | .error e =>
    { exitCode := 1, countdownStarted := false, soundAttempts := 0,
      events := [mainErrMsg e, usageMsg] }
  | .ok n =>
    let cd := countdown n cdInt
    match cd.outcome with
    | .cancelled =>
      { exitCode := 0, countdownStarted := true, soundAttempts := 0,
        events := cd.events }
    | .complete =>
      let snd := play_sound_macos 10 env
      { exitCode := 0, countdownStarted := true,
        soundAttempts := snd.attempts.length,
        events := cd.events ++ snd.events }

lemma main_eq_error (dur : List Char) (cdInt : Option Nat)
    (env : Nat → PlayResult) (e : ParseError) (h : parse_time dur = .error e) :
    main dur cdInt env =
      ⟨1, false, 0, [mainErrMsg e, usageMsg]⟩ := by
  unfold main
  rw [h]

lemma main_eq_cancelled (dur : List Char) (cdInt : Option Nat)
    (env : Nat → PlayResult) (n : Nat) (h : parse_time dur = .ok n)
    (hc : (countdown n cdInt).outcome = .cancelled) :
    main dur cdInt env = ⟨0, true, 0, (countdown n cdInt).events⟩ := by
  unfold main
  rw [h]
  simp only [hc]

lemma main_eq_complete (dur : List Char) (cdInt : Option Nat)
    (env : Nat → PlayResult) (n : Nat) (h : parse_time dur = .ok n)
    (hc : (countdown n cdInt).outcome = .complete) :
    main dur cdInt env =
      ⟨0, true, (play_sound_macos 10 env).attempts.length,
        (countdown n cdInt).events ++ (play_sound_macos 10 env).events⟩ := by
  unfold main
  rw [h]
  simp only [hc]

lemma main_exitCode_of_ok (dur : List Char) (cdInt : Option Nat)
    (env : Nat → PlayResult) (m : Nat) (h : parse_time dur = .ok m) :
    (main dur cdInt env).exitCode = 0 := by
  cases hc : (countdown m cdInt).outcome with
  | complete => rw [main_eq_complete dur cdInt env m h hc]
  | cancelled => rw [main_eq_cancelled dur cdInt env m h hc]

/-- A concrete playback stub whose third invocation (index 2) fails with
a nonzero exit; the earlier invocations succeed. -/
def failThird : Nat → PlayResult
  | 2 => .failed (("boom").toList)
  | _ => .success

/-! ## The claims -/

/-- Claim C1: for every valid duration string of the form `{h}h{m}m{s}s`
(any subset of the three parts present, at least one, in h, m, s order,
digits only, no separators) whose computed total is positive,
`parse_time` returns exactly `h*3600 + m*60 + s`. -/
theorem C1_parser_valid_strings (h m s : Option (List Char))
    (hh : partOk h) (hm : partOk m) (hs : partOk s)
    (_hsome : h.isSome = true ∨ m.isSome = true ∨ s.isSome = true)
    (hpos : 0 < totalOf h m s) :
    parse_time (buildStr h m s) = .ok (totalOf h m s) :=
  parse_time_ok_of_valid h m s hh hm hs hpos

/-- Witness for C1 at the spec's four examples. -/
theorem C1_parser_valid_strings_witness :
    parse_time ("1h30m10s").toList = .ok 5410 ∧
      parse_time ("90m").toList = .ok 5400 ∧
      parse_time ("180s").toList = .ok 180 ∧
      parse_time ("2h").toList = .ok 7200 :=
  ⟨C1_parser_valid_strings (some ['1']) (some ['3', '0']) (some ['1', '0'])
      (by decide) (by decide) (by decide) (Or.inl rfl) (by decide),
    C1_parser_valid_strings none (some ['9', '0']) none
      (by decide) (by decide) (by decide) (Or.inr (Or.inl rfl)) (by decide),
    C1_parser_valid_strings none none (some ['1', '8', '0'])
      (by decide) (by decide) (by decide) (Or.inr (Or.inr rfl)) (by decide),
    C1_parser_valid_strings (some ['2']) none none
      (by decide) (by decide) (by decide) (Or.inl rfl) (by decide)⟩

/-- Counterexample to claim C2: the string `"30s\n"` contains a character
(`'\n'`) that is neither a digit nor one of the unit suffixes h/m/s, so
the claim requires `parse_time` to fail on it — yet `parse_time` accepts
it and returns 30, because Python's `$` anchor also matches just before a
single newline that ends the string. -/
theorem C2_counterexample :
    parse_time ("30s" ++ "\n").toList = .ok 30 ∧
      ∃ c, c ∈ ("30s" ++ "\n").toList ∧
        ¬(c.isDigit = true ∨ c = 'h' ∨ c = 'm' ∨ c = 's') :=
  ⟨by decide, '\n', by decide, by decide⟩

/-- Claim C2 as amended: `parse_time` raises a `ValueError` on `""`,
`"abc"`, `"30x"`, `"0h0m0s"`, `"0s"` and `"30m1h"`; whenever it returns,
its result is strictly positive; and every accepted ASCII string is a
valid duration — parts in h, m, s order, digits only, at least one part,
positive total — except that a valid duration followed by one trailing
newline is also accepted (Python's `$` matches before a final newline).
The characterisation of the accepted set is stated over ASCII inputs
(`c.toNat < 128`), the domain on which the embedding's `Char.isDigit` is
exactly Python's `\d`: outside ASCII, `\d` matches further Unicode
decimal digits that the spec's grammar does not cover (for instance, the
program maps U+0663 ARABIC-INDIC DIGIT THREE followed by `s` to 3). -/
theorem C2_amended_rejection :
    (isError (parse_time ("").toList) = true ∧
      isError (parse_time ("abc").toList) = true ∧
      isError (parse_time ("30x").toList) = true ∧
      isError (parse_time ("0h0m0s").toList) = true ∧
      isError (parse_time ("0s").toList) = true ∧
      isError (parse_time ("30m1h").toList) = true) ∧
    (∀ s n, parse_time s = .ok n → 0 < n) ∧
    (∀ s n, (∀ c ∈ s, c.toNat < 128) → parse_time s = .ok n →
      ∃ hp mp sp, partOk hp ∧ partOk mp ∧ partOk sp ∧
        ¬(hp = none ∧ mp = none ∧ sp = none) ∧
        n = totalOf hp mp sp ∧
        (s = buildStr hp mp sp ∨ s = buildStr hp mp sp ++ ['\n'])) := by
  refine ⟨⟨by decide, by decide, by decide, by decide, by decide, by decide⟩,
    parse_time_ok_pos, ?_⟩
  intro s n _ h
  obtain ⟨hp, mp, sp, a1, a2, a3, a4, a5, _, a7⟩ := parse_time_ok_shape s n h
  exact ⟨hp, mp, sp, a1, a2, a3, a4, a5, a7⟩

/-- Witness for C2 (amended), at the accepted ASCII input `"5s"`. -/
theorem C2_amended_rejection_witness :
    ∃ hp mp sp, partOk hp ∧ partOk mp ∧ partOk sp ∧
      ¬(hp = none ∧ mp = none ∧ sp = none) ∧
      5 = totalOf hp mp sp ∧
      (("5s").toList = buildStr hp mp sp ∨
        ("5s").toList = buildStr hp mp sp ++ ['\n']) :=
  C2_amended_rejection.2.2 (("5s").toList) 5 (by decide) (by decide)

/-- Claim C3: a `KeyboardInterrupt` delivered at a blocking point —
during a countdown sleep, or during sound playback — produces a
cancellation message and exit status 0; and when the interrupt occurs
during the countdown, the notifier is never invoked (zero playback
attempts). -/
theorem C3_interrupt_clean_exit :
    (∀ dur n k env, parse_time dur = .ok n → k < n →
      (main dur (some k) env).exitCode = 0 ∧
        (main dur (some k) env).soundAttempts = 0 ∧
        cancelMsg ∈ (main dur (some k) env).events) ∧
    (∀ dur n env j, parse_time dur = .ok n → j < 10 →
      (∀ i, i < j → env i = PlayResult.success) → env j = .interrupted →
      (main dur none env).exitCode = 0 ∧
        soundInterruptMsg ∈ (main dur none env).events ∧
        (play_sound_macos 10 env).exited = true) := by
  constructor
  · intro dur n k env hp hk
    obtain ⟨ho, hmem⟩ := countdownLoop_cancelled n k hk
    have hmain := main_eq_cancelled dur (some k) env n hp ho
    rw [hmain]
    exact ⟨rfl, rfl, List.mem_cons_of_mem _ hmem⟩
  · intro dur n env j hp hj hsucc hint
    have hco : (countdown n none).outcome = .complete := (countdownLoop_none n).1
    have hstop : env j ≠ .success := by simp [hint]
    have hLoop := soundLoop_stops env j 0 10 hj
      (fun i hi => by simpa using hsucc i hi) (by simpa using hstop)
    simp only [Nat.zero_add] at hLoop
    have hmem : soundInterruptMsg ∈ (play_sound_macos 10 env).events := by
      simp [play_sound_macos, hLoop, hint, stopEvents, stopExited]
    have hex : (play_sound_macos 10 env).exited = true := by
      simp [play_sound_macos, hLoop, hint, stopExited]
    have hmain := main_eq_complete dur none env n hp hco
    rw [hmain]
    exact ⟨rfl, List.mem_append_right _ hmem, hex⟩

/-- Witness for C3: interrupt during the first countdown sleep of a
two-second timer, and interrupt during the first playback. -/
theorem C3_interrupt_clean_exit_witness :
    ((main ("2s").toList (some 0) (fun _ => PlayResult.success)).exitCode = 0 ∧
      (main ("2s").toList (some 0) (fun _ => PlayResult.success)).soundAttempts = 0 ∧
      cancelMsg ∈ (main ("2s").toList (some 0) (fun _ => PlayResult.success)).events) ∧
    ((main ("2s").toList none (fun _ => PlayResult.interrupted)).exitCode = 0 ∧
      soundInterruptMsg ∈ (main ("2s").toList none (fun _ => PlayResult.interrupted)).events ∧
      (play_sound_macos 10 (fun _ => PlayResult.interrupted)).exited = true) :=
  ⟨C3_interrupt_clean_exit.1 (("2s").toList) 2 0 (fun _ => .success)
      (by decide) (by decide),
    C3_interrupt_clean_exit.2 (("2s").toList) 2 (fun _ => .interrupted) 0
      (by decide) (by decide) (fun i hi => absurd hi (by omega)) rfl⟩

/-- Claim C4: for every string the duration parser rejects, the program
prints an error message (which embeds the invalid input) and the usage
line, exits with the non-zero status 1, and never starts a countdown. -/
theorem C4_invalid_duration (dur : List Char) (e : ParseError)
    (cdInt : Option Nat) (env : Nat → PlayResult)
    (h : parse_time dur = .error e) :
    main dur cdInt env = ⟨1, false, 0, [mainErrMsg e, usageMsg]⟩ ∧
      errorInput e = some dur := by
  refine ⟨main_eq_error dur cdInt env e h, ?_⟩
  rcases parse_time_error_shape dur e h with rfl | rfl <;> rfl

/-- Witness for C4 at the rejected input `"abc"`. -/
theorem C4_invalid_duration_witness :
    main (("abc").toList) none (fun _ => PlayResult.success) =
        ⟨1, false, 0, [mainErrMsg (.invalidFormat (("abc").toList)), usageMsg]⟩ ∧
      errorInput (ParseError.invalidFormat (("abc").toList)) =
        some (("abc").toList) :=
  C4_invalid_duration (("abc").toList) _ none (fun _ => .success) (by decide)

/-- Claim C5: when every individual playback succeeds, the notifier
invokes the playback collaborator exactly `n` times — attempt indices
0..n-1 in order, each `subprocess.run` call blocking until its child
exits, so there is no overlap — and then prints only the header and the
final message; with `times = 10` this is exactly ten invocations. -/
theorem C5_notifier_repeats (n : Nat) (env : Nat → PlayResult)
    (h : ∀ i, i < n → env i = PlayResult.success) :
    (play_sound_macos n env).attempts = List.range n ∧
      (play_sound_macos n env).exited = false ∧
      (play_sound_macos n env).events = [soundHeaderMsg n, finishedMsg] := by
  have hall := soundLoop_all_success env n 0 (fun j hj => by simpa using h j hj)
  refine ⟨?_, ?_, ?_⟩ <;> simp [play_sound_macos, hall, List.range_eq_range']

/-- Witness for C5 at `times = 10` with an always-succeeding stub. -/
theorem C5_notifier_repeats_witness :
    (play_sound_macos 10 (fun _ => PlayResult.success)).attempts = List.range 10 ∧
      (play_sound_macos 10 (fun _ => PlayResult.success)).exited = false ∧
      (play_sound_macos 10 (fun _ => PlayResult.success)).events =
        [soundHeaderMsg 10, finishedMsg] :=
  C5_notifier_repeats 10 (fun _ => .success) (fun _ _ => rfl)

/-- Claim C6: if the playback mechanism is unavailable
(`FileNotFoundError`) or an invocation fails with a nonzero exit
(`CalledProcessError`) at iteration k of the repeat sequence, the
notifier makes exactly k+1 attempts and aborts the rest, reports the
condition (including the subprocess's stderr for a failed invocation),
neither raises nor exits at its boundary, and the whole program still
exits with status 0. -/
theorem C6_notifier_failure (n k : Nat) (env : Nat → PlayResult)
    (hk : k < n) (hsucc : ∀ i, i < k → env i = PlayResult.success)
    (hfail : env k = .fileNotFound ∨ ∃ st, env k = .failed st) :
    (play_sound_macos n env).attempts = List.range (k + 1) ∧
      (play_sound_macos n env).exited = false ∧
      (env k = .fileNotFound →
        afplayMissingMsg ∈ (play_sound_macos n env).events) ∧
      (∀ st, env k = .failed st →
        playFailMsg k ∈ (play_sound_macos n env).events ∧
          stderrMsg st ∈ (play_sound_macos n env).events) ∧
      (∀ dur m cdInt, parse_time dur = .ok m →
        (main dur cdInt env).exitCode = 0) := by
  have hstop : env k ≠ .success := by
    rcases hfail with hf | ⟨st, hf⟩ <;> simp [hf]
  have hLoop := soundLoop_stops env k 0 n hk
    (fun i hi => by simpa using hsucc i hi) (by simpa using hstop)
  simp only [Nat.zero_add] at hLoop
  refine ⟨?_, ?_, ?_, ?_, ?_⟩
  · simp [play_sound_macos, hLoop, List.range_eq_range']
  · rcases hfail with hf | ⟨st, hf⟩ <;>
      simp [play_sound_macos, hLoop, hf, stopExited]
  · intro hf
    simp [play_sound_macos, hLoop, hf, stopEvents, stopExited]
  · intro st hf
    constructor <;> simp [play_sound_macos, hLoop, hf, stopEvents, stopExited]
  · intro dur m cdInt hp
    exact main_exitCode_of_ok dur cdInt env m hp

/-- Witness for C6: a repeat sequence of 10 whose third invocation fails
with a nonzero exit. -/
theorem C6_notifier_failure_witness :
    (play_sound_macos 10 failThird).attempts = List.range 3 ∧
      (play_sound_macos 10 failThird).exited = false ∧
      (failThird 2 = .fileNotFound →
        afplayMissingMsg ∈ (play_sound_macos 10 failThird).events) ∧
      (∀ st, failThird 2 = .failed st →
        playFailMsg 2 ∈ (play_sound_macos 10 failThird).events ∧
          stderrMsg st ∈ (play_sound_macos 10 failThird).events) ∧
      (∀ dur m cdInt, parse_time dur = .ok m →
        (main dur cdInt failThird).exitCode = 0) :=
  C6_notifier_failure 10 2 failThird (by decide)
    (fun i hi => by interval_cases i <;> rfl)
    (Or.inr ⟨("boom").toList, rfl⟩)

/-- Claim C7: for every strictly positive duration n, the uninterrupted
countdown loop terminates — it runs exactly n ticks, sleeping
`min 1 remaining` (= 1 whole second at every integer remaining ≥ 1) per
tick — and reaches the Complete outcome. -/
theorem C7_countdown_terminates (n : Nat) (h : 0 < n) :
    (countdown n none).outcome = .complete ∧
      (countdown n none).sleeps = List.replicate n 1 ∧
      (countdown n none).sleeps.length = n := by
  obtain ⟨h1, h2⟩ := countdownLoop_none n
  have e1 : (countdown n none).outcome = (countdownLoop n none).outcome := rfl
  have e2 : (countdown n none).sleeps = (countdownLoop n none).sleeps := rfl
  rw [e1, e2, h2, List.length_replicate]
  exact ⟨h1, rfl, rfl⟩

/-- Witness for C7 at n = 3. -/
theorem C7_countdown_terminates_witness :
    (countdown 3 none).outcome = .complete ∧
      (countdown 3 none).sleeps = List.replicate 3 1 ∧
      (countdown 3 none).sleeps.length = 3 :=
  C7_countdown_terminates 3 (by decide)

/-- Claim C8: every tick with positive remaining r (up to the duration n)
emits an `overwrite` event — the same output line is overwritten via a
carriage return and flushed, with no newline — whose text is
`Time remaining: HH:MM:SS`, where the three fields are zero-padded
decimal digit strings decoding to r / 3600 (hours, not wrapped modulo
24), r % 3600 / 60 and r % 60; minutes and seconds have exactly two
digits, hours at least two. -/
theorem C8_render_hms (n r : Nat) (h1 : 0 < r) (h2 : r ≤ n) :
    tickMsg r ∈ (countdown n none).events ∧
      tickMsg r = .overwrite (("Time remaining: ").toList ++
        (pad2 (r / 3600) ++ ':' :: (pad2 (r % 3600 / 60) ++ ':' :: pad2 (r % 60)))) ∧
      digitsToNat (pad2 (r / 3600)) = r / 3600 ∧
      digitsToNat (pad2 (r % 3600 / 60)) = r % 3600 / 60 ∧
      digitsToNat (pad2 (r % 60)) = r % 60 ∧
      2 ≤ (pad2 (r / 3600)).length ∧
      (pad2 (r % 3600 / 60)).length = 2 ∧
      (pad2 (r % 60)).length = 2 ∧
      (∀ c ∈ pad2 (r / 3600), c.isDigit = true) ∧
      (∀ c ∈ pad2 (r % 3600 / 60), c.isDigit = true) ∧
      (∀ c ∈ pad2 (r % 60), c.isDigit = true) :=
  ⟨List.mem_cons_of_mem _ (tickMsg_mem_countdownLoop n r h1 h2),
    rfl, pad2_roundtrip _, pad2_roundtrip _, pad2_roundtrip _,
    pad2_length_ge _, pad2_length_of_lt _ (by omega),
    pad2_length_of_lt _ (by omega), pad2_all_digit _, pad2_all_digit _,
    pad2_all_digit _⟩

/-- Witness for C8 at remaining 90000 seconds (25 hours: the hours field
exceeds 23 and is not wrapped). -/
theorem C8_render_hms_witness :
    tickMsg 90000 ∈ (countdown 90000 none).events ∧
      tickMsg 90000 = .overwrite (("Time remaining: ").toList ++
        (pad2 (90000 / 3600) ++ ':' ::
          (pad2 (90000 % 3600 / 60) ++ ':' :: pad2 (90000 % 60)))) ∧
      digitsToNat (pad2 (90000 / 3600)) = 90000 / 3600 ∧
      digitsToNat (pad2 (90000 % 3600 / 60)) = 90000 % 3600 / 60 ∧
      digitsToNat (pad2 (90000 % 60)) = 90000 % 60 ∧
      2 ≤ (pad2 (90000 / 3600)).length ∧
      (pad2 (90000 % 3600 / 60)).length = 2 ∧
      (pad2 (90000 % 60)).length = 2 ∧
      (∀ c ∈ pad2 (90000 / 3600), c.isDigit = true) ∧
      (∀ c ∈ pad2 (90000 % 3600 / 60), c.isDigit = true) ∧
      (∀ c ∈ pad2 (90000 % 60), c.isDigit = true) :=
  C8_render_hms 90000 90000 (by decide) (by decide)

/-- Claim C9: the `"Total duration must be positive."` branch of
`parse_time` is unreachable — the three component values are non-negative
integers, so a non-positive total forces all of them to zero, which takes
the earlier branch — and therefore every error `parse_time` raises
carries a message that embeds the offending input string. -/
theorem C9_error_includes_input (s : List Char) (e : ParseError)
    (h : parse_time s = .error e) :
    e ≠ .nonPositiveTotal ∧ errorInput e = some s ∧
      ∃ pre post, renderError e = pre ++ s ++ post := by
  rcases parse_time_error_shape s e h with rfl | rfl
  · exact ⟨by simp, rfl, _, _, rfl⟩
  · exact ⟨by simp, rfl, _, _, rfl⟩

/-- Witness for C9 at the rejected input `"0h0m0s"` (the branch that
would otherwise have been closest to the non-positive-total error). -/
theorem C9_error_includes_input_witness :
    ParseError.noTimeUnits (("0h0m0s").toList) ≠ .nonPositiveTotal ∧
      errorInput (.noTimeUnits (("0h0m0s").toList)) = some (("0h0m0s").toList) ∧
      ∃ pre post, renderError (.noTimeUnits (("0h0m0s").toList)) =
        pre ++ ("0h0m0s").toList ++ post :=
  C9_error_includes_input (("0h0m0s").toList) _ (by decide)

/-- Claim C10: `play_sound_macos` returns normally for every outcome of
the playback attempts — the only exception past its boundary is the clean
`sys.exit(0)` of the `KeyboardInterrupt` handler, which occurs only when
some attempted playback was interrupted — and whenever it returns, its
last print is unconditionally `"Finished playing sound."`, including when
the repeat sequence was aborted early. -/
theorem C10_finished_message (n : Nat) (env : Nat → PlayResult) :
    ((play_sound_macos n env).exited = false →
      (play_sound_macos n env).events.getLast? = some finishedMsg) ∧
    ((play_sound_macos n env).exited = true →
      ∃ k, k ∈ (play_sound_macos n env).attempts ∧ env k = .interrupted) := by
  constructor
  · intro hx
    have hx' : (soundLoop env 0 n).exited = false := hx
    show (soundHeaderMsg n :: ((soundLoop env 0 n).events ++
      (if (soundLoop env 0 n).exited then [] else [finishedMsg]))).getLast? =
        some finishedMsg
    rw [hx']
    simp only [Bool.false_eq_true, if_false]
    rw [← List.cons_append, List.getLast?_concat]
  · intro hx
    exact soundLoop_exited env n 0 hx

/-- Witness for C10: an always-failing playback stub aborts after the
first attempt, yet the final print is still the finished message. -/
theorem C10_finished_message_witness :
    (play_sound_macos 3 (fun _ => PlayResult.failed (("boom").toList))).events.getLast?
      = some finishedMsg :=
  (C10_finished_message 3 (fun _ => .failed (("boom").toList))).1 (by decide)

end Timer
